import Mathlib

/-
Verification development for the remote code-execution client of an
online code editor. The definitions below are a shallow embedding of
the execution client (src/lib/code-runner.ts, src/lib/docker-service.ts):
the display-line data model, the client-side Python fast path, the
inline-result normalizer, the deferred-result wait state machine, the
terminal-session creation race, the shared connection handle, and the
terminal output multiplexing. JavaScript strings are modelled as Lean
strings, with the relevant string operations re-implemented structurally
over lists of characters so that every definition is executable.
-/

/-- The kind tags of terminal display lines (TerminalOutput.type in
src/types/terminal.ts). -/
inductive LineKind
  | standard
  | error
  | warning
  | success
  | info
  | command
  | input
  | inputRequest
deriving DecidableEq

/-- One typed line of terminal output (TerminalOutput). -/
structure DisplayLine where
  kind : LineKind
  content : String
deriving DecidableEq

/-- The execution result delivered by the backend, inline in the HTTP
response body or over the channel: status string, raw output text and
exit code. -/
structure ExecResult where
  status : String
  output : String
  exitCode : Int
deriving DecidableEq

/-- Characters treated as whitespace by the JavaScript string functions
used in the client (space, tab, newline, carriage return, vertical tab,
form feed). -/
def wsChar (c : Char) : Bool :=
  c = ' ' || c = '\t' || c = '\n' || c = '\r' || c = '\x0b' || c = '\x0c'

/-- Trim whitespace from both ends of a character list (JavaScript
String.prototype.trim). -/
def trimChars (l : List Char) : List Char :=
  ((l.dropWhile wsChar).reverse.dropWhile wsChar).reverse

/-- Split a character list on the newline character (JavaScript
split applied with a one-character separator); keeps empty pieces. -/
def splitNl : List Char → List (List Char)
  | [] => [[]]
  | c :: rest =>
    if c = '\n' then [] :: splitNl rest
    else
      match splitNl rest with
      | [] => [[c]]
      | g :: gs => (c :: g) :: gs

/-- String wrapper for splitNl. -/
def jsSplitLines (s : String) : List String :=
  (splitNl s.data).map String.mk

/-- Decide whether the first list is a prefix of the second. -/
def prefMatch : List Char → List Char → Bool
  | [], _ => true
  | _ :: _, [] => false
  | a :: ps, b :: ss => a = b && prefMatch ps ss

/-- Decide whether the pattern occurs as a contiguous sublist
(JavaScript String.prototype.includes). -/
def occursIn (p : List Char) : List Char → Bool
  | [] => prefMatch p []
  | s@(_ :: rest) => prefMatch p s || occursIn p rest

/-- String wrapper for occursIn. -/
def strContains (s pat : String) : Bool :=
  occursIn pat.data s.data

/-- The command line announcing a run. -/
def runningLine (language : String) : DisplayLine :=
  DisplayLine.mk LineKind.command ("Running " ++ language ++ " code...")

/-- The optional input-echo line: present exactly when stdin is truthy
(non-empty). -/
def echoLines (input : String) : List DisplayLine :=
  if input ≠ "" then [DisplayLine.mk LineKind.input input] else []

/-- Lines pushed before any network activity by executeCode: the
command line, then the input echo when stdin is non-empty. -/
def initialLines (language input : String) : List DisplayLine :=
  [runningLine language] ++ echoLines input

/-- Normalization of an inline ExecutionResult into display lines,
embedded from the data.result branch of executeCode: a fresh array gets
the command line; on success the input echo (when stdin is non-empty),
one standard line for each line of the output split on newline whose
trim is non-empty (in original order, untrimmed content), and a success
line with the exit code; otherwise a single error line carrying the
output, or the fallback literal when the output is empty. -/
def normalizeInline (language input : String) (r : ExecResult) : List DisplayLine :=
  if r.status = "success" then
    [runningLine language] ++ echoLines input
      ++ ((jsSplitLines r.output).filter (fun l => !(trimChars l.data).isEmpty)).map
          (fun l => DisplayLine.mk LineKind.standard l)
      ++ [DisplayLine.mk LineKind.success ("Program exited with code " ++ toString r.exitCode)]
  else
    [runningLine language]
      ++ [DisplayLine.mk LineKind.error (if r.output = "" then "Execution failed" else r.output)]

/-- The literal searched for by the fast-path guard. -/
def printParen : String := "print("

/-- The literal searched for by the stdin-pattern guard. -/
def inputParen : String := "input("

/-- Opening curly brace character, written by code point. -/
def braceOpen : Char := Char.ofNat 123

/-- Closing curly brace character, written by code point. -/
def braceClose : Char := Char.ofNat 125

/-- Double quote character. -/
def dquoteCh : Char := Char.ofNat 34

/-- Single quote character. -/
def squoteCh : Char := Char.ofNat 39

/-- Consume the given literal from the front of a list, returning the
remainder on success. -/
def dropLit : List Char → List Char → Option (List Char)
  | [], s => some s
  | _ :: _, [] => none
  | a :: as, b :: bs => if a = b then dropLit as bs else none

/-- Skip a maximal run of whitespace. -/
def skipWs (l : List Char) : List Char := l.dropWhile wsChar

/-- Take characters up to the first closing parenthesis; none when no
closing parenthesis exists. Models the regex fragment matching a
parenthesized argument without inner closing parens. -/
def takeUntilParen : List Char → Option (List Char × List Char)
  | [] => none
  | c :: rest =>
    if c = ')' then some ([], rest)
    else
      match takeUntilParen rest with
      | some (content, r) => some (c :: content, r)
      | none => none

/-- Try to match a complete print call at the head of the list: the
literal characters of print, optional whitespace, an opening paren, the
argument run without closing parens, and the closing paren. Returns the
captured argument and the remainder after the match. -/
def matchPrintAt (s : List Char) : Option (List Char × List Char) :=
  match dropLit ("print".data) s with
  | none => none
  | some r1 =>
    match skipWs r1 with
    | '(' :: r3 =>
      match takeUntilParen r3 with
      | some (content, rest) => some (content, rest)
      | none => none
    | _ => none

/-- Leftmost, non-overlapping scan collecting the captured argument of
every print call, continuing after each match (JavaScript matchAll with
a global regex). Fuel-driven; each step consumes at least one
character, so fuel equal to the list length never truncates. -/
def scanPrintsAux : Nat → List Char → List String
  | 0, _ => []
  | n + 1, s =>
    match s with
    | [] => []
    | _ :: rest =>
      match matchPrintAt s with
      | some (content, r) => String.mk content :: scanPrintsAux n r
      | none => scanPrintsAux n rest

/-- All print-call arguments occurring in the code, in order. -/
def scanPrints (s : List Char) : List String :=
  scanPrintsAux s.length s

/-- Word characters of the regex class backslash-w. -/
def isWordChar (c : Char) : Bool :=
  (c ≥ 'a' && c ≤ 'z') || (c ≥ 'A' && c ≤ 'Z') || (c ≥ '0' && c ≤ '9') || c = '_'

/-- Try to match, at the head of the list, a word run, optional
whitespace, an equals sign, optional whitespace, the literal input,
optional whitespace, and a complete parenthesized argument; returns the
word run (the captured variable name). -/
def matchVarAt (s : List Char) : Option (List Char) :=
  let w := s.takeWhile isWordChar
  if w.isEmpty then none
  else
    match skipWs (s.dropWhile isWordChar) with
    | '=' :: r3 =>
      match dropLit ("input".data) (skipWs r3) with
      | some r5 =>
        match skipWs r5 with
        | '(' :: r7 => if (takeUntilParen r7).isSome then some w else none
        | _ => none
      | none => none
    | _ => none

/-- Leftmost search for the variable-assignment-from-input pattern
(JavaScript String.prototype.match, first match only). -/
def findVarAux : Nat → List Char → Option (List Char)
  | 0, _ => none
  | n + 1, s =>
    match s with
    | [] => none
    | _ :: rest =>
      match matchVarAt s with
      | some w => some w
      | none => findVarAux n rest

/-- The fast-path input variable name: extracted (and trimmed) only
when stdin is non-empty and the pattern occurs, else empty. -/
def varNameFor (code input : String) : String :=
  if input ≠ "" then
    match findVarAux code.data.length code.data with
    | some w => String.mk (trimChars w)
    | none => ""
  else ""

/-- Does the list start with the given character. -/
def startsWithCh (c : Char) : List Char → Bool
  | [] => false
  | a :: _ => a = c

/-- Does the list end with the given character. -/
def endsWithCh (c : Char) (l : List Char) : Bool :=
  startsWithCh c l.reverse

/-- Is the content wrapped in matching double or single quotes. -/
def isQuoted (l : List Char) : Bool :=
  (startsWithCh dquoteCh l && endsWithCh dquoteCh l)
    || (startsWithCh squoteCh l && endsWithCh squoteCh l)

/-- JavaScript substring from index one to length minus one, with the
clamp-and-swap behavior of substring on short inputs (a one-character
list is returned whole). -/
def jsInner (l : List Char) : List Char :=
  if l.length ≤ 1 then l else (l.drop 1).take (l.length - 2)

/-- The remainder after the first closing brace, when one exists. -/
def findCloseBr : List Char → Option (List Char)
  | [] => none
  | c :: rest => if c = braceClose then some rest else findCloseBr rest

/-- Replace every brace-delimited group (opening brace, characters up
to the first closing brace, closing brace) by the replacement, scanning
left to right (JavaScript replace with a global regex). Fuel-driven;
fuel equal to the list length never truncates. -/
def replaceBracesAux : Nat → List Char → List Char → List Char
  | 0, _, s => s
  | n + 1, repl, s =>
    match s with
    | [] => []
    | c :: rest =>
      if c = braceOpen then
        match findCloseBr rest with
        | some after => repl ++ replaceBracesAux n repl after
        | none => c :: replaceBracesAux n repl rest
      else c :: replaceBracesAux n repl rest

/-- Replace all brace-delimited groups by the replacement. -/
def replaceBraces (l repl : List Char) : List Char :=
  replaceBracesAux l.length repl l

/-- Rendering of one print-call argument by the fast path: trim it;
strip surrounding quotes when it is a quoted literal; when it begins
with the f character, contains both braces and stdin is non-empty,
strip the leading f, and if the rest is quoted, substitute stdin for
every brace group of its inside; finally, when a captured input
variable name is non-empty and equals the trimmed argument, the line is
the stdin itself. -/
def renderPrint (input varName : String) (raw : String) : String :=
  let content := trimChars raw.data
  let out1 := if isQuoted content then String.mk (jsInner content) else String.mk content
  let out2 :=
    if startsWithCh 'f' content && occursIn [braceOpen] content
        && occursIn [braceClose] content && input ≠ "" then
      let fs := content.drop 1
      if isQuoted fs then String.mk (replaceBraces (jsInner fs) input.data) else out1
    else out1
  if varName ≠ "" && String.mk content = varName then input else out2

/-- The client-side fast path of executeCode: when the language is
python and the code contains the print-open-paren literal, and at least
one complete print call is found, and either the code has no
input-open-paren literal or stdin is non-empty, executeCode returns
locally: command line, input echo when stdin is non-empty, one standard
line per print call rendered by renderPrint, and the success line with
exit code zero. Otherwise the fast path does not return. -/
def fastPath (code language input : String) : Option (List DisplayLine) :=
  if language = "python" ∧ strContains code printParen then
    let prints := scanPrints code.data
    if prints.isEmpty then none
    else if ¬ strContains code inputParen ∨ input ≠ "" then
      some (initialLines language input
        ++ prints.map (fun c =>
            DisplayLine.mk LineKind.standard (renderPrint input (varNameFor code input) c))
        ++ [DisplayLine.mk LineKind.success "Program exited with code 0"])
    else none
  else none

/-- The contents of the fallback output array at the time the backend
path uses it: the command line and optional input echo, plus — when the
fast path matched prints but did not return early (stdin pattern
present with empty stdin) — the already-pushed standard lines and
success line. -/
def fallbackBase (code language input : String) : List DisplayLine :=
  initialLines language input ++
    (if language = "python" ∧ strContains code printParen
        ∧ ¬ (scanPrints code.data).isEmpty
        ∧ strContains code inputParen ∧ input = "" then
      (scanPrints code.data).map (fun c =>
          DisplayLine.mk LineKind.standard (renderPrint input (varNameFor code input) c))
        ++ [DisplayLine.mk LineKind.success "Program exited with code 0"]
    else [])

/-- Outcome of the backend interaction of one executeCode call, as seen
by the client: the request or response-body read threw (carrying the
message of the thrown Error when there was one), the body failed to
parse, the body carried an inline result, or the body carried only an
execution correlation id. -/
inductive BackendResponse
  | networkError (msg : Option String)
  | unparsable
  | inlineResult (r : ExecResult)
  | deferred (executionId : String)
deriving DecidableEq

/-- What executeCode does up to its first suspension on the channel:
either it resolves immediately with display lines, or it is left
waiting on the channel for the result correlated with an execution
id. -/
inductive ExecOutcome
  | immediate (lines : List DisplayLine)
  | waiting (executionId : String)
deriving DecidableEq

/-- The synchronous part of executeCode: the fast path returns locally
when it applies; otherwise a thrown network error yields one error line
with the message (or the unknown-error literal), an unparsable body
appends the parse-error line to the fallback array, an inline result is
normalized on a fresh array, and a correlation id leaves the call
waiting on the channel. -/
def executeCodeStep (code language input : String) (resp : BackendResponse) : ExecOutcome :=
  match fastPath code language input with
  | some lines => ExecOutcome.immediate lines
  | none =>
    match resp with
    | BackendResponse.networkError msg =>
      ExecOutcome.immediate [DisplayLine.mk LineKind.error (msg.getD "Unknown error occurred")]
    | BackendResponse.unparsable =>
      ExecOutcome.immediate (fallbackBase code language input
        ++ [DisplayLine.mk LineKind.error "Server error: Could not parse response"])
    | BackendResponse.inlineResult r =>
      ExecOutcome.immediate (normalizeInline language input r)
    | BackendResponse.deferred executionId =>
      ExecOutcome.waiting executionId

/-- The process-exit banner filtered from deferred results. -/
def exitBanner : String := "** Process exited - Return Code:"

/-- The press-enter banner filtered from deferred results. -/
def pressEnterBanner : String := "Press Enter to exit terminal"

/-- Is the line one of the backend-injected control lines removed
before resolving a deferred result. -/
def controlLine (l : DisplayLine) : Bool :=
  strContains l.content exitBanner || strContains l.content pressEnterBanner

/-- The display lines a deferred execution resolves with, embedded from
the execution-result handler: a fresh array gets the command line, then
the input echo when stdin is non-empty (for success and failure alike),
then on success the non-blank output lines and the success line, else
one error line; finally every line containing a control banner is
filtered out. -/
def deferredLines (language input : String) (r : ExecResult) : List DisplayLine :=
  (([runningLine language] ++ echoLines input
      ++ (if r.status = "success" then
            ((jsSplitLines r.output).filter (fun l => !(trimChars l.data).isEmpty)).map
                (fun l => DisplayLine.mk LineKind.standard l)
              ++ [DisplayLine.mk LineKind.success
                    ("Program exited with code " ++ toString r.exitCode)]
          else
            [DisplayLine.mk LineKind.error
                (if r.output = "" then "Execution failed" else r.output)]))).filter
    (fun l => !(controlLine l))

/-- State of one executeCode call waiting on the channel for a
deferred result: the execution id whose room the call joined, whether
the one-shot result handler is still registered, and the value the
promise has resolved with, when it has. -/
structure WaitState where
  joined : String
  handlerActive : Bool
  resolvedWith : Option (List DisplayLine)
deriving DecidableEq

/-- The wait state just after executeCode joins the execution room and
registers its one-shot handler. -/
def initialWait (id : String) : WaitState :=
  WaitState.mk id true none

/-- Settle-once semantics of promise resolution: a second resolution is
a silent no-op. -/
def resolveOnce (cur : Option (List DisplayLine)) (lines : List DisplayLine) :
    Option (List DisplayLine) :=
  match cur with
  | some x => some x
  | none => some lines

/-- Events observable by a waiting executeCode call: the backend emits
an execution result addressed to the room of a given execution id
(delivered to this call only when it joined that room), or the
30-second timer fires. -/
inductive ChanEvent
  | result (targetId : String) (r : ExecResult)
  | timeoutFire
deriving DecidableEq

/-- One step of the deferred wait. A result addressed to the joined
room while the one-shot handler is registered removes the handler,
builds the display lines and resolves the promise (a no-op when already
resolved); a result addressed to another room is never delivered to
this call; the timer handler always attempts to resolve with the
timeout error line, because its guard inspects a freshly created empty
array, and resolution is again a no-op when the promise is already
settled. -/
def stepWait (language input : String) (s : WaitState) : ChanEvent → WaitState
  | ChanEvent.result targetId r =>
    if targetId = s.joined ∧ s.handlerActive then
      WaitState.mk s.joined false
        (resolveOnce s.resolvedWith (deferredLines language input r))
    else s
  | ChanEvent.timeoutFire =>
    WaitState.mk s.joined s.handlerActive
      (resolveOnce s.resolvedWith [DisplayLine.mk LineKind.error "Execution timed out"])

/-- Run a sequence of channel events through the wait state. -/
def runWait (language input : String) (s : WaitState) : List ChanEvent → WaitState
  | [] => s
  | e :: rest => runWait language input (stepWait language input s e) rest

/-- Outcome of a createTerminalSession call: resolved with the new
session id, or rejected with an error message. -/
inductive CreateOutcome
  | resolved (sessionId : String)
  | rejected (message : String)
deriving DecidableEq

/-- State of one createTerminalSession call: the settled outcome when
there is one, and whether the one-shot created and error handlers are
still registered. -/
structure CreateState where
  outcome : Option CreateOutcome
  createdActive : Bool
  erroredActive : Bool
deriving DecidableEq

/-- The state just after createTerminalSession emits the create request
and registers its handlers. -/
def initCreate : CreateState :=
  CreateState.mk none true true

/-- Settle-once semantics of a promise: the first resolution or
rejection wins, later ones are silent no-ops. -/
def settleOnce (cur : Option CreateOutcome) (o : CreateOutcome) : Option CreateOutcome :=
  match cur with
  | some x => some x
  | none => some o

/-- Events observable by a waiting createTerminalSession call: the
session-created event, the session-error event (an empty message models
a missing one), or the 10-second timer firing. -/
inductive CreateEvent
  | created (sessionId : String)
  | errored (message : String)
  | timeoutFire
deriving DecidableEq

/-- One step of the creation race: the created event resolves with the
session id and consumes its one-shot handler; the error event rejects
with the event message or the fallback literal when the message is
empty, consuming its handler; the timer rejects with the timed-out
literal. All three settle at most once. -/
def stepCreate (s : CreateState) : CreateEvent → CreateState
  | CreateEvent.created sessionId =>
    if s.createdActive then
      CreateState.mk (settleOnce s.outcome (CreateOutcome.resolved sessionId))
        false s.erroredActive
    else s
  | CreateEvent.errored message =>
    if s.erroredActive then
      CreateState.mk
        (settleOnce s.outcome (CreateOutcome.rejected
          (if message = "" then "Failed to create terminal session" else message)))
        s.createdActive false
    else s
  | CreateEvent.timeoutFire =>
    CreateState.mk (settleOnce s.outcome (CreateOutcome.rejected "Terminal creation timed out"))
      s.createdActive s.erroredActive

/-- Run a sequence of creation events. -/
def runCreate (s : CreateState) : List CreateEvent → CreateState
  | [] => s
  | e :: rest => runCreate (stepCreate s e) rest

/-- The module-level connection state of the client: the handle of the
established connection when one exists, and a counter supplying the
identity of the next handle that would be constructed. -/
structure SockState where
  handle : Option Nat
  nextHandle : Nat
deriving DecidableEq

/-- getSocket: return the existing handle, or construct one, store it
in the module-level variable and return it. -/
def getSocket (s : SockState) : Nat × SockState :=
  match s.handle with
  | some h => (h, s)
  | none => (s.nextHandle, SockState.mk (some s.nextHandle) (s.nextHandle + 1))

/-- A sequence of getSocket calls, collecting the returned handles and
threading the module state. -/
def runCalls : Nat → SockState → List Nat × SockState
  | 0, s => ([], s)
  | n + 1, s =>
    let p := getSocket s
    let q := runCalls n p.2
    (p.1 :: q.1, q.2)

/-- Registry of the listeners attached to the shared terminal-output
event: each entry is the identity of a registered handler closure and
the session id it was created for, in registration order, together with
a counter supplying the identity of the next handler. -/
structure TermState where
  listeners : List (Nat × String)
  nextId : Nat
deriving DecidableEq

/-- onTerminalOutput: register on the shared output event a handler
closed over the given session id, and return its identity (the real
code returns the unsubscribe closure; the identity is what that closure
removes). -/
def onTerminalOutput (sessionId : String) (s : TermState) : Nat × TermState :=
  (s.nextId, TermState.mk (s.listeners ++ [(s.nextId, sessionId)]) (s.nextId + 1))

/-- The cleanup function returned by onTerminalOutput: remove exactly
the handler with the given identity from the shared event. -/
def unsubscribeOutput (hid : Nat) (s : TermState) : TermState :=
  TermState.mk (s.listeners.filter (fun p => p.1 ≠ hid)) s.nextId

/-- The handlers whose callback runs when an output chunk embedding the
given session id is delivered on the shared event: every registered
handler fires, and its body invokes the callback exactly when the
embedded session id of the chunk equals the session id of the handler. -/
def invokedFor (s : TermState) (chunkSession : String) : List Nat :=
  (s.listeners.filter (fun p => p.2 = chunkSession)).map (fun p => p.1)

/-- The ambient module-level state an executeCode call can reach: the
shared connection variable and the console log. The inline-result
normalization block reads none of it and writes none of it. -/
structure World where
  sock : SockState
  consoleLog : List String
deriving DecidableEq

/-- The inline normalization block run explicitly against the ambient
module state: it returns its lines and leaves the state untouched,
because the block reads only its three arguments. -/
def runNormalizer (w : World) (language input : String) (r : ExecResult) :
    List DisplayLine × World :=
  (normalizeInline language input r, w)

/-- After a handle exists, getSocket returns it and leaves the module
state unchanged. -/
theorem getSocket_stable (s : SockState) :
    getSocket (getSocket s).2 = ((getSocket s).1, (getSocket s).2) := by
  cases h : s.handle with
  | some a => simp [getSocket, h]
  | none => simp [getSocket, h]

/-- C8: getSocket is idempotent: in any sequence of calls, the first
call constructs the handle when none exists, every later call returns
the same handle, and the module state after any positive number of
calls equals the state after the first call, so at most one physical
connection is ever constructed per process. -/
theorem c8_get_socket_idempotent : ∀ (n : Nat) (s : SockState),
    runCalls (n + 1) s = (List.replicate (n + 1) (getSocket s).1, (getSocket s).2) := by
  have hstep : ∀ (n : Nat) (s : SockState),
      runCalls (n + 1) s
        = ((getSocket s).1 :: (runCalls n (getSocket s).2).1, (runCalls n (getSocket s).2).2) :=
    fun n s => rfl
  intro n
  induction n with
  | zero => intro s; simp [hstep, runCalls]
  | succ k ih =>
    intro s
    rw [hstep, ih (getSocket s).2, getSocket_stable s]
    simp [List.replicate_succ]

/-- C9: the inline normalizer is deterministic and stateless: run
against the ambient module state it leaves the state unchanged, running
it twice in sequence yields identical display-line sequences, and its
output does not depend on the state it is run against. -/
theorem c9_normalizer_deterministic :
    ∀ (w w2 : World) (language input : String) (r : ExecResult),
    (runNormalizer w language input r).2 = w ∧
    (runNormalizer ((runNormalizer w language input r).2) language input r).1
        = (runNormalizer w language input r).1 ∧
    (runNormalizer w2 language input r).1 = (runNormalizer w language input r).1 := by
  intro w w2 language input r
  exact ⟨rfl, rfl, rfl⟩

/-- C1: for an inline success result (reached when the fast path does
not return locally), executeCode resolves with the command line, then
the input echo when stdin is non-empty, then one standard line per line
of the output split on newline whose trim is non-empty, in original
order, then one success line carrying the exit code. -/
theorem c1_inline_success_order (code language input : String) (r : ExecResult)
    (hfp : fastPath code language input = none) (hs : r.status = "success") :
    executeCodeStep code language input (BackendResponse.inlineResult r) =
      ExecOutcome.immediate
        ([DisplayLine.mk LineKind.command ("Running " ++ language ++ " code...")]
          ++ (if input ≠ "" then [DisplayLine.mk LineKind.input input] else [])
          ++ ((jsSplitLines r.output).filter (fun l => !(trimChars l.data).isEmpty)).map
              (fun l => DisplayLine.mk LineKind.standard l)
          ++ [DisplayLine.mk LineKind.success
                ("Program exited with code " ++ toString r.exitCode)]) := by
  simp [executeCodeStep, hfp, normalizeInline, hs, runningLine, echoLines]

/-- C1 witness: the theorem applied to a concrete inline success
result with non-empty stdin and a whitespace-only output line. -/
theorem c1_inline_success_order_witness :
    fastPath "console.log(1)" "javascript" "in1" = none ∧
    (ExecResult.mk "success" "hi\n  \nthere" 0).status = "success" ∧
    executeCodeStep "console.log(1)" "javascript" "in1"
        (BackendResponse.inlineResult (ExecResult.mk "success" "hi\n  \nthere" 0)) =
      ExecOutcome.immediate
        ([DisplayLine.mk LineKind.command ("Running " ++ "javascript" ++ " code...")]
          ++ (if "in1" ≠ "" then [DisplayLine.mk LineKind.input "in1"] else [])
          ++ ((jsSplitLines (ExecResult.mk "success" "hi\n  \nthere" 0).output).filter
                (fun l => !(trimChars l.data).isEmpty)).map
              (fun l => DisplayLine.mk LineKind.standard l)
          ++ [DisplayLine.mk LineKind.success
                ("Program exited with code "
                  ++ toString (ExecResult.mk "success" "hi\n  \nthere" 0).exitCode)]) :=
  ⟨by decide, by decide,
    c1_inline_success_order "console.log(1)" "javascript" "in1"
      (ExecResult.mk "success" "hi\n  \nthere" 0) (by decide) (by decide)⟩

/-- C4 counterexample: for an inline failure result with non-empty
stdin, executeCode returns the command line and the error line only;
the input-echo line claimed between them is not emitted, because the
echo push sits inside the success branch. -/
theorem c4_inline_failure_counterexample :
    executeCodeStep "console.log(1)" "javascript" "in1"
        (BackendResponse.inlineResult (ExecResult.mk "failure" "boom" 0)) =
      ExecOutcome.immediate
        [DisplayLine.mk LineKind.command "Running javascript code...",
         DisplayLine.mk LineKind.error "boom"] ∧
    ExecOutcome.immediate
        [DisplayLine.mk LineKind.command "Running javascript code...",
         DisplayLine.mk LineKind.error "boom"] ≠
      ExecOutcome.immediate
        [DisplayLine.mk LineKind.command "Running javascript code...",
         DisplayLine.mk LineKind.input "in1",
         DisplayLine.mk LineKind.error "boom"] :=
  ⟨by decide, by decide⟩

/-- C4 (amended): for an inline failure result (reached when the fast
path does not return locally), executeCode returns exactly the command
line followed by one error line whose content is the result output, or
the literal fallback when the output is empty; no input echo is emitted
in this branch even when stdin is non-empty. -/
theorem c4_inline_failure_order (code language input : String) (r : ExecResult)
    (hfp : fastPath code language input = none) (hs : r.status ≠ "success") :
    executeCodeStep code language input (BackendResponse.inlineResult r) =
      ExecOutcome.immediate
        [DisplayLine.mk LineKind.command ("Running " ++ language ++ " code..."),
         DisplayLine.mk LineKind.error
           (if r.output = "" then "Execution failed" else r.output)] := by
  simp [executeCodeStep, hfp, normalizeInline, hs, runningLine]

/-- C4 witness: the amended theorem applied to a concrete inline
failure result with empty output and non-empty stdin. -/
theorem c4_inline_failure_order_witness :
    fastPath "console.log(1)" "javascript" "in1" = none ∧
    (ExecResult.mk "failure" "" 0).status ≠ "success" ∧
    executeCodeStep "console.log(1)" "javascript" "in1"
        (BackendResponse.inlineResult (ExecResult.mk "failure" "" 0)) =
      ExecOutcome.immediate
        [DisplayLine.mk LineKind.command ("Running " ++ "javascript" ++ " code..."),
         DisplayLine.mk LineKind.error
           (if (ExecResult.mk "failure" "" 0).output = "" then "Execution failed"
            else (ExecResult.mk "failure" "" 0).output)] :=
  ⟨by decide, by decide,
    c4_inline_failure_order "console.log(1)" "javascript" "in1"
      (ExecResult.mk "failure" "" 0) (by decide) (by decide)⟩

/-- Running a trace splits at an append. -/
theorem runWait_append (language input : String) (s : WaitState)
    (evs1 evs2 : List ChanEvent) :
    runWait language input s (evs1 ++ evs2)
      = runWait language input (runWait language input s evs1) evs2 := by
  induction evs1 generalizing s with
  | nil => rfl
  | cons e rest ih => simp [runWait, ih]

/-- A result addressed to a room other than the joined one leaves the
wait state untouched. -/
theorem stepWait_foreign (language input : String) (s : WaitState)
    (t : String) (r : ExecResult) (h : t ≠ s.joined) :
    stepWait language input s (ChanEvent.result t r) = s := by
  simp [stepWait, h]

/-- A trace of results all addressed to other rooms leaves the initial
wait state untouched. -/
theorem runWait_foreign (language input id : String) (pre : List ChanEvent)
    (hpre : ∀ e ∈ pre, ∃ t r2, e = ChanEvent.result t r2 ∧ t ≠ id) :
    runWait language input (initialWait id) pre = initialWait id := by
  induction pre with
  | nil => rfl
  | cons e rest ih =>
    obtain ⟨t, r2, rfl, ht⟩ := hpre e (by simp)
    rw [runWait, stepWait_foreign language input (initialWait id) t r2 (by simpa [initialWait] using ht)]
    exact ih (fun e he => hpre e (by simp [he]))

/-- Once the promise is settled, no later event changes its value. -/
theorem runWait_settled (language input : String) (s : WaitState)
    (x : List DisplayLine) (hx : s.resolvedWith = some x) (evs : List ChanEvent) :
    (runWait language input s evs).resolvedWith = some x := by
  induction evs generalizing s with
  | nil => exact hx
  | cons e rest ih =>
    rw [runWait]
    apply ih
    cases e with
    | result t r =>
      by_cases hc : t = s.joined ∧ s.handlerActive
      · simp [stepWait, hc, resolveOnce, hx]
      · simp [stepWait, hc, hx]
    | timeoutFire => simp [stepWait, resolveOnce, hx]

/-- C2: while executeCode waits on a deferred result for a given
execution id, results addressed to any other id leave the call
unresolved, and the first result addressed to the matching id resolves
it with the lines of the deferred normalizer: command line, input echo
when stdin is non-empty, the normalized body for the result status, and
the control-banner filter applied. -/
theorem c2_deferred_correlation (language input id : String) (r : ExecResult)
    (pre : List ChanEvent)
    (hpre : ∀ e ∈ pre, ∃ t r2, e = ChanEvent.result t r2 ∧ t ≠ id) :
    (runWait language input (initialWait id) pre).resolvedWith = none ∧
    (runWait language input (initialWait id)
        (pre ++ [ChanEvent.result id r])).resolvedWith
      = some (deferredLines language input r) := by
  constructor
  · rw [runWait_foreign language input id pre hpre]; rfl
  · rw [runWait_append, runWait_foreign language input id pre hpre]
    simp [runWait, stepWait, initialWait, resolveOnce]

/-- C2 counterexample: delivering the matching result of a failed
execution with non-empty stdin resolves the deferred call with the
command line, the input echo and the error line, while the inline
normalization of the very same result yields only the command line and
the error line — so the deferred resolution does not share the display
ordering of the inline case. -/
theorem c2_deferred_inline_mismatch :
    (runWait "javascript" "in1" (initialWait "e1")
        [ChanEvent.result "e1" (ExecResult.mk "failure" "boom" 0)]).resolvedWith
      = some [DisplayLine.mk LineKind.command "Running javascript code...",
              DisplayLine.mk LineKind.input "in1",
              DisplayLine.mk LineKind.error "boom"] ∧
    normalizeInline "javascript" "in1" (ExecResult.mk "failure" "boom" 0)
      = [DisplayLine.mk LineKind.command "Running javascript code...",
         DisplayLine.mk LineKind.error "boom"] ∧
    ([DisplayLine.mk LineKind.command "Running javascript code...",
      DisplayLine.mk LineKind.input "in1",
      DisplayLine.mk LineKind.error "boom"] : List DisplayLine)
      ≠ [DisplayLine.mk LineKind.command "Running javascript code...",
         DisplayLine.mk LineKind.error "boom"] :=
  ⟨by decide, by decide, by decide⟩

/-- C2 witness: the theorem applied to a concrete trace with one
foreign result before the matching delivery. -/
theorem c2_deferred_correlation_witness :
    (∀ e ∈ [ChanEvent.result "other" (ExecResult.mk "success" "z" 0)],
        ∃ t r2, e = ChanEvent.result t r2 ∧ t ≠ "mine") ∧
    (runWait "javascript" "" (initialWait "mine")
        [ChanEvent.result "other" (ExecResult.mk "success" "z" 0)]).resolvedWith = none ∧
    (runWait "javascript" "" (initialWait "mine")
        ([ChanEvent.result "other" (ExecResult.mk "success" "z" 0)]
          ++ [ChanEvent.result "mine" (ExecResult.mk "success" "hi" 0)])).resolvedWith
      = some (deferredLines "javascript" "" (ExecResult.mk "success" "hi" 0)) :=
  ⟨fun e he => ⟨"other", ExecResult.mk "success" "z" 0, by simpa using he, by decide⟩,
    (c2_deferred_correlation "javascript" "" "mine" (ExecResult.mk "success" "hi" 0)
        [ChanEvent.result "other" (ExecResult.mk "success" "z" 0)]
        (fun e he => ⟨"other", ExecResult.mk "success" "z" 0, by simpa using he, by decide⟩)).1,
    (c2_deferred_correlation "javascript" "" "mine" (ExecResult.mk "success" "hi" 0)
        [ChanEvent.result "other" (ExecResult.mk "success" "z" 0)]
        (fun e he => ⟨"other", ExecResult.mk "success" "z" 0, by simpa using he, by decide⟩)).2⟩

/-- C3: when no result for the joined execution id arrives before the
30-second timer fires, the deferred executeCode call resolves with
exactly one error line stating the timeout, and any events delivered
afterwards — including a late result for that very id — leave the
resolution unchanged and raise nothing. -/
theorem c3_timeout_once (language input id : String) (pre post : List ChanEvent)
    (hpre : ∀ e ∈ pre, ∃ t r2, e = ChanEvent.result t r2 ∧ t ≠ id) :
    (runWait language input (initialWait id)
        (pre ++ ChanEvent.timeoutFire :: post)).resolvedWith
      = some [DisplayLine.mk LineKind.error "Execution timed out"] := by
  rw [runWait_append, runWait_foreign language input id pre hpre, runWait]
  exact runWait_settled language input _ _ (by simp [stepWait, initialWait, resolveOnce]) post

/-- C3 witness: the theorem applied to a trace where the timer fires
first and the matching result arrives only afterwards. -/
theorem c3_timeout_once_witness :
    (∀ e ∈ ([] : List ChanEvent), ∃ t r2, e = ChanEvent.result t r2 ∧ t ≠ "e1") ∧
    (runWait "javascript" "" (initialWait "e1")
        ([] ++ ChanEvent.timeoutFire
          :: [ChanEvent.result "e1" (ExecResult.mk "success" "late" 0)])).resolvedWith
      = some [DisplayLine.mk LineKind.error "Execution timed out"] :=
  ⟨fun e he => absurd he (by simp),
    c3_timeout_once "javascript" "" "e1" []
      [ChanEvent.result "e1" (ExecResult.mk "success" "late" 0)]
      (fun e he => absurd he (by simp))⟩

/-- Once a createTerminalSession promise is settled, later events do
not change its outcome. -/
theorem runCreate_settled (s : CreateState) (x : CreateOutcome)
    (hx : s.outcome = some x) (evs : List CreateEvent) :
    (runCreate s evs).outcome = some x := by
  induction evs generalizing s with
  | nil => exact hx
  | cons e rest ih =>
    rw [runCreate]
    apply ih
    cases e with
    | created sid =>
      by_cases hc : s.createdActive
      · simp [stepCreate, hc, settleOnce, hx]
      · simp [stepCreate, hc, hx]
    | errored msg =>
      by_cases hc : s.erroredActive
      · simp [stepCreate, hc, settleOnce, hx]
      · simp [stepCreate, hc, hx]
    | timeoutFire => simp [stepCreate, settleOnce, hx]

/-- C7: the createTerminalSession race settles on whichever of the
three outcomes occurs first: a timer firing before any created or
error event rejects with the timed-out message; a created event first
resolves with the new session id; an error event first rejects with a
descriptive message built from the event message (or the fallback
literal when the message is empty). Later events never change the
settled outcome. -/
theorem c7_create_session_race :
    ∀ (rest : List CreateEvent) (sessionId message : String),
    (runCreate initCreate (CreateEvent.timeoutFire :: rest)).outcome
        = some (CreateOutcome.rejected "Terminal creation timed out") ∧
    (runCreate initCreate (CreateEvent.created sessionId :: rest)).outcome
        = some (CreateOutcome.resolved sessionId) ∧
    (runCreate initCreate (CreateEvent.errored message :: rest)).outcome
        = some (CreateOutcome.rejected
            (if message = "" then "Failed to create terminal session" else message)) := by
  intro rest sessionId message
  refine ⟨?_, ?_, ?_⟩
  · rw [runCreate]
    exact runCreate_settled _ _ (by simp [stepCreate, initCreate, settleOnce]) rest
  · rw [runCreate]
    exact runCreate_settled _ _ (by simp [stepCreate, initCreate, settleOnce]) rest
  · rw [runCreate]
    exact runCreate_settled _ _ (by simp [stepCreate, initCreate, settleOnce]) rest

/-- C5: a listener registered through onTerminalOutput for session a is
never among the listeners whose callback runs for a chunk embedding a
different session id b, because the handler body discards chunks whose
embedded id differs from the subscribed one; and the returned
unsubscribe function removes exactly that listener, restoring the
registry (under the invariant that all registered handler identities
are below the freshness counter). -/
theorem c5_session_isolation (a b : String) (s : TermState) (hab : a ≠ b)
    (hfresh : ∀ p ∈ s.listeners, p.1 < s.nextId) :
    (onTerminalOutput a s).1 ∉ invokedFor (onTerminalOutput a s).2 b ∧
    (unsubscribeOutput (onTerminalOutput a s).1 (onTerminalOutput a s).2).listeners
      = s.listeners := by
  constructor
  · intro hmem
    simp only [onTerminalOutput, invokedFor, List.filter_append, List.map_append,
      List.mem_append] at hmem
    rcases hmem with h | h
    · rcases List.mem_map.1 h with ⟨p, hp, hval⟩
      have hlt := hfresh p (List.mem_filter.1 hp).1
      exact absurd hval (Nat.ne_of_lt hlt)
    · simp [List.filter_cons, hab] at h
  · simp only [onTerminalOutput, unsubscribeOutput, List.filter_append]
    rw [List.filter_eq_self.2 (fun p hp => by
        simpa using Nat.ne_of_lt (hfresh p hp))]
    simp

/-- C5 witness: the theorem applied to a concrete registry holding one
earlier listener. -/
theorem c5_session_isolation_witness :
    ("sessA" : String) ≠ "sessB" ∧
    (∀ p ∈ (TermState.mk [(0, "sessB")] 1).listeners,
        p.1 < (TermState.mk [(0, "sessB")] 1).nextId) ∧
    ((onTerminalOutput "sessA" (TermState.mk [(0, "sessB")] 1)).1
        ∉ invokedFor (onTerminalOutput "sessA" (TermState.mk [(0, "sessB")] 1)).2 "sessB" ∧
      (unsubscribeOutput (onTerminalOutput "sessA" (TermState.mk [(0, "sessB")] 1)).1
          (onTerminalOutput "sessA" (TermState.mk [(0, "sessB")] 1)).2).listeners
        = (TermState.mk [(0, "sessB")] 1).listeners) :=
  ⟨by decide, by decide,
    c5_session_isolation "sessA" "sessB" (TermState.mk [(0, "sessB")] 1)
      (by decide) (by decide)⟩

/-- C6: when the fast path does not return locally, a thrown network
or body-read failure is caught and executeCode resolves with exactly
one error line carrying the failure message (or the unknown-error
literal when the thrown value is not an Error); an unparsable response
body resolves with the fallback lines followed by the parse-error line,
and the fallback lines contain no error line, so the failure
contributes exactly one error line; executeCodeStep is a total
function, so every such call resolves. -/
theorem c6_request_failure_handled (code language input : String) (msg : Option String)
    (hfp : fastPath code language input = none) :
    executeCodeStep code language input (BackendResponse.networkError msg) =
      ExecOutcome.immediate
        [DisplayLine.mk LineKind.error (msg.getD "Unknown error occurred")] ∧
    executeCodeStep code language input BackendResponse.unparsable =
      ExecOutcome.immediate (fallbackBase code language input
        ++ [DisplayLine.mk LineKind.error "Server error: Could not parse response"]) ∧
    ∀ l ∈ fallbackBase code language input, l.kind ≠ LineKind.error := by
  refine ⟨by simp [executeCodeStep, hfp], by simp [executeCodeStep, hfp], ?_⟩
  intro l hl
  simp only [fallbackBase, initialLines, echoLines, runningLine, List.mem_append] at hl
  rcases hl with (h | h) | h
  · rw [List.mem_singleton] at h; subst h; simp
  · split at h
    · rw [List.mem_singleton] at h; subst h; simp
    · exact absurd h (List.not_mem_nil l)
  · split at h
    · rcases List.mem_append.1 h with h2 | h2
      · rcases List.mem_map.1 h2 with ⟨c, _, rfl⟩; simp
      · rw [List.mem_singleton] at h2; subst h2; simp
    · exact absurd h (List.not_mem_nil l)

/-- C6 witness: the theorem applied to a concrete request whose
network call throws an Error with a message, and one whose response
body is unparsable. -/
theorem c6_request_failure_handled_witness :
    fastPath "console.log(1)" "javascript" "" = none ∧
    (executeCodeStep "console.log(1)" "javascript" ""
        (BackendResponse.networkError (some "Failed to fetch")) =
      ExecOutcome.immediate
        [DisplayLine.mk LineKind.error ((some "Failed to fetch").getD "Unknown error occurred")] ∧
    executeCodeStep "console.log(1)" "javascript" "" BackendResponse.unparsable =
      ExecOutcome.immediate (fallbackBase "console.log(1)" "javascript" ""
        ++ [DisplayLine.mk LineKind.error "Server error: Could not parse response"]) ∧
    ∀ l ∈ fallbackBase "console.log(1)" "javascript" "", l.kind ≠ LineKind.error) :=
  ⟨by decide,
    c6_request_failure_handled "console.log(1)" "javascript" "" (some "Failed to fetch")
      (by decide)⟩

/-- C10 counterexample: the code consisting of the six characters of
the print-open-paren literal contains that literal and no
input-open-paren literal, yet the fast path does not return locally —
no complete print call matches the extraction regex — and executeCode
proceeds to the backend: its outcome depends on the backend response. -/
theorem c10_fast_path_counterexample :
    fastPath "print(" "python" "" = none ∧
    executeCodeStep "print(" "python" "" BackendResponse.unparsable =
      ExecOutcome.immediate
        [DisplayLine.mk LineKind.command "Running python code...",
         DisplayLine.mk LineKind.error "Server error: Could not parse response"] ∧
    executeCodeStep "print(" "python" ""
        (BackendResponse.inlineResult (ExecResult.mk "success" "ok" 0)) ≠
      executeCodeStep "print(" "python" "" BackendResponse.unparsable :=
  ⟨by decide, by decide, by decide⟩

/-- C10 (amended): for a python request whose code contains the
print-open-paren literal and at least one complete print call matched
by the extraction scan, and which either contains no input-open-paren
literal or has non-empty stdin, executeCode returns locally — the same
lines for every backend response, so no backend interaction can affect
the outcome: the command line, the input echo when stdin is non-empty,
one standard line per matched print call rendered by renderPrint
(quote-stripping for quoted literal arguments; with non-empty stdin,
stdin substituted into braces of a quoted f-string argument and for an
argument equal to the detected input variable), and the success line
with exit code zero. -/
theorem c10_fast_path_local (code input : String) (resp : BackendResponse)
    (h1 : strContains code printParen = true)
    (h2 : (scanPrints code.data).isEmpty = false)
    (h3 : strContains code inputParen = false ∨ input ≠ "") :
    executeCodeStep code "python" input resp =
      ExecOutcome.immediate
        ([DisplayLine.mk LineKind.command ("Running " ++ "python" ++ " code...")]
          ++ (if input ≠ "" then [DisplayLine.mk LineKind.input input] else [])
          ++ (scanPrints code.data).map (fun c =>
              DisplayLine.mk LineKind.standard (renderPrint input (varNameFor code input) c))
          ++ [DisplayLine.mk LineKind.success "Program exited with code 0"]) := by
  have hfp : fastPath code "python" input =
      some ([DisplayLine.mk LineKind.command ("Running " ++ "python" ++ " code...")]
        ++ (if input ≠ "" then [DisplayLine.mk LineKind.input input] else [])
        ++ (scanPrints code.data).map (fun c =>
            DisplayLine.mk LineKind.standard (renderPrint input (varNameFor code input) c))
        ++ [DisplayLine.mk LineKind.success "Program exited with code 0"]) := by
    rcases h3 with h3 | h3
    · simp [fastPath, h1, h2, h3, initialLines, echoLines, runningLine]
    · simp [fastPath, h1, h2, h3, initialLines, echoLines, runningLine]
  simp [executeCodeStep, hfp]

/-- C10 witness: the amended theorem applied to a concrete two-print
program with empty stdin. -/
theorem c10_fast_path_local_witness :
    strContains "print(\"hi\")\nprint(2)" printParen = true ∧
    (scanPrints ("print(\"hi\")\nprint(2)".data)).isEmpty = false ∧
    (strContains "print(\"hi\")\nprint(2)" inputParen = false ∨ ("" : String) ≠ "") ∧
    executeCodeStep "print(\"hi\")\nprint(2)" "python" "" BackendResponse.unparsable =
      ExecOutcome.immediate
        ([DisplayLine.mk LineKind.command ("Running " ++ "python" ++ " code...")]
          ++ (if ("" : String) ≠ "" then [DisplayLine.mk LineKind.input ""] else [])
          ++ (scanPrints ("print(\"hi\")\nprint(2)".data)).map (fun c =>
              DisplayLine.mk LineKind.standard
                (renderPrint "" (varNameFor "print(\"hi\")\nprint(2)" "") c))
          ++ [DisplayLine.mk LineKind.success "Program exited with code 0"]) :=
  ⟨by decide, by decide, Or.inl (by decide),
    c10_fast_path_local "print(\"hi\")\nprint(2)" "" BackendResponse.unparsable
      (by decide) (by decide) (Or.inl (by decide))⟩
